import Mathlib

/-!
Verification of the adaptive rule-switching test engines of the
LLM-cognitive-flexibility repository (Wisconsin Card Sorting Test and
Letter-Number Test), together with the experiment orchestrators, the
response-extraction helpers of the model wrappers, and the analysis
bound.

The repository's core engine modules (`src/tests/wcst.py` and
`src/tests/lnt.py`) are not present in the source tree — only their
tests, callers and the specification describe them — so the engine
definitions below are modelled from the spec (each such definition says
so in its doc comment).  The orchestrator skip logic
(`experiments/run_wcst.py`, `experiments/run_lnt.py`), the response
extractors (`src/models/gemini.py`, `src/models/llama.py`) and
`calculate_bounds` (`src/analysis/analyze_results.py`) are embedded
directly from the source.

Randomness is modelled by explicit entropy parameters: every place where
the Python code draws from a random source takes a natural number (or a
list of naturals) and selects by reduction modulo the number of
alternatives, so that every definition stays executable and every
"uniformly at random from set S" obligation becomes a membership fact
that holds for all entropy values.
-/

/-- A WCST card: an immutable (shape, color, count) triple.  Modelled from
the spec, §3: "an immutable triple (shape ∈ ShapeSet, color ∈ ColorSet,
count ∈ CountSet). Equality is attribute-wise." -/
abbrev Card := String × String × Nat

/-- Modelled from the spec: the WCST configuration record (§3, §6) and the
constructor keywords exercised by `tests/test_integration.py`
(`num_trials`, `num_successes_before_switch`, `shapes`, `colors`,
`numbers`); the deck replication multiplier defaults to 5 (§3) which
matches the `5 * 4 * 4 * 4` default deck size asserted by the test. -/
structure WCSTConfig where
  num_trials : Nat := 25
  num_successes_before_switch : Nat := 6
  shapes : List String := ["circle", "triangle", "square", "star"]
  colors : List String := ["red", "green", "blue", "yellow"]
  numbers : List Nat := [1, 2, 3, 4]
  multiplier : Nat := 5
deriving DecidableEq

/-- The enumerated WCST rule values, exactly as the integration test and
spec write them: `['shape', 'color', 'number']`. -/
def wcstRules : List String := ["shape", "color", "number"]

/-- The enumerated LNT task values (`['letter', 'number']`, spec §3). -/
def lntTasks : List String := ["letter", "number"]

/-- Index into a list by an entropy value reduced modulo the length; the
default is returned only for an empty list.  This is the uniform-choice
primitive of the randomness model. -/
def pickFrom (l : List α) (d : α) (e : Nat) : α :=
  l.getD (e % l.length) d

/-- Fuel-indexed shuffle: select the element indexed by the next entropy
value, emit it, recurse on the remainder.  With fuel = length this is a
permutation of the input, which is all the spec requires of the
construction-time deck shuffle (§3: "shuffled once at construction"). -/
def shuffleGo [DecidableEq α] : Nat → List Nat → List α → List α
  | 0, _, _ => []
  | _ + 1, _, [] => []
  | fuel + 1, ent, x :: xs =>
    let y := pickFrom (x :: xs) x (ent.headD 0)
    y :: shuffleGo fuel ent.tail ((x :: xs).erase y)

/-- Modelled from the spec, §3: the one-time construction shuffle of the
deck. -/
def shuffle [DecidableEq α] (ent : List Nat) (l : List α) : List α :=
  shuffleGo l.length ent l

/-- Modelled from the spec, §3: "the full cross product of the configured
shape/color/count sets". -/
def crossDeck (cfg : WCSTConfig) : List Card :=
  cfg.shapes.flatMap fun sh =>
    cfg.colors.flatMap fun co =>
      cfg.numbers.map fun n => (sh, co, n)

/-- Modelled from the spec, §3: the cross product "replicated a fixed
multiplier (default 5)". -/
def baseDeck (cfg : WCSTConfig) : List Card :=
  (List.replicate cfg.multiplier (crossDeck cfg)).flatten

/-- Whether two cards agree on the attribute selected by the active rule
string.  Modelled from the spec, §4.3: "`options[choice_index]` shares the
value of the currently active rule attribute with `card`". -/
def matchesRule (a b : Card) (rule : String) : Bool :=
  if rule = "shape" then a.1 == b.1
  else if rule = "color" then a.2.1 == b.2.1
  else a.2.2 == b.2.2

/-- Pick a new rule/task value from the enumerated values excluding the
current one.  Modelled from the spec, §4.4: "pick a new rule/task value
uniformly at random from the set of values excluding the current one". -/
def pickDiff (vals : List String) (current : String) (e : Nat) : String :=
  let others := vals.filter fun v => v != current
  others.getD (e % others.length) current

/-- The shared streak/switch policy of both engines.  Modelled from the
spec, §4.4: on a reinforced success increment the streak, otherwise reset
it to 0; when the streak reaches the threshold, switch to a different
rule/task value and reset the streak to 0, synchronously inside the same
evaluation.  Returns (new active value, new streak, remaining switch
entropy). -/
def switchUpdate (vals : List String) (threshold : Nat) (current : String)
    (streak : Nat) (success : Bool) (ent : List Nat) :
    String × Nat × List Nat :=
  if success then
    if threshold ≤ streak + 1 then
      (pickDiff vals current (ent.headD 0), 0, ent.tail)
    else
      (current, streak + 1, ent)
  else
    (current, 0, ent)

/-- A WCST trial record: (stimulus, subject choice, correctness boolean,
rule active at evaluation time).  Modelled from the spec, §3. -/
structure WTrialRec where
  card : Card
  choice : Nat
  correct : Bool
  rule : String
deriving DecidableEq

/-- Modelled from the spec: the WCST instance state — immutable config,
the deck fixed at construction, the hidden mutable rule, the score/streak
counters, the trial counter and the append-only history (§3), plus the
explicit entropy stream feeding rule switches. -/
structure WCST where
  config : WCSTConfig
  deck : List Card
  current_rule : String
  score : Nat
  streak : Nat
  trial_count : Nat
  history : List WTrialRec
  entropy : List Nat
deriving DecidableEq

/-- Modelled from the spec, §3/§4.2: construction builds the shuffled deck
once and initializes the hidden rule to a uniformly random member of the
enumerated rule values; counters start at zero, history empty. -/
def WCST.init (cfg : WCSTConfig) (ruleEnt : Nat) (shuffleEnt : List Nat)
    (switchEnt : List Nat) : WCST :=
  { config := cfg
    deck := shuffle shuffleEnt (baseDeck cfg)
    current_rule := pickFrom wcstRules "shape" ruleEnt
    score := 0
    streak := 0
    trial_count := 0
    history := []
    entropy := switchEnt }

/-- Pick a value from `set` different from `v` (used for attributes that
must vary); the degenerate case of a set with no other value falls back to
`v` itself, which the spec classifies as a configuration error (§4.1). -/
def otherVal [DecidableEq α] (set : List α) (v : α) (e : Nat) : α :=
  pickFrom (set.filter fun x => x != v) v e

/-- Modelled from the spec, §4.1: the option card that matches the
presented card on the active rule attribute, its non-active attributes
drawn to vary from the presented card's. -/
def matchingCard (cfg : WCSTConfig) (rule : String) (c : Card)
    (e1 e2 : Nat) : Card :=
  if rule = "shape" then (c.1, otherVal cfg.colors c.2.1 e1, otherVal cfg.numbers c.2.2 e2)
  else if rule = "color" then (otherVal cfg.shapes c.1 e1, c.2.1, otherVal cfg.numbers c.2.2 e2)
  else (otherVal cfg.shapes c.1 e1, otherVal cfg.colors c.2.1 e2, c.2.2)

/-- Modelled from the spec, §4.1: a distractor option card whose active
rule attribute differs from the presented card's, the other attributes
drawn freely from the configured sets. -/
def distractorCard (cfg : WCSTConfig) (rule : String) (c : Card)
    (e1 e2 e3 : Nat) : Card :=
  if rule = "shape" then
    (otherVal cfg.shapes c.1 e1, pickFrom cfg.colors c.2.1 e2, pickFrom cfg.numbers c.2.2 e3)
  else if rule = "color" then
    (pickFrom cfg.shapes c.1 e1, otherVal cfg.colors c.2.1 e2, pickFrom cfg.numbers c.2.2 e3)
  else
    (pickFrom cfg.shapes c.1 e1, pickFrom cfg.colors c.2.1 e2, otherVal cfg.numbers c.2.2 e3)

/-- Insert `x` at position `i` of `l` (positions past the end append). -/
def insertAt (l : List α) (i : Nat) (x : α) : List α :=
  l.take i ++ x :: l.drop i

/-- Modelled from the spec, §4.1: `generate_options(card)` returns an
ordered sequence of exactly 4 candidate cards — one matching the presented
card on the currently active rule attribute, inserted at a random position
among three distractors that differ on it. -/
def WCST.generate_options (s : WCST) (ent : List Nat) (card : Card) : List Card :=
  let g := fun i => ent.getD i 0
  let m := matchingCard s.config s.current_rule card (g 1) (g 2)
  let d1 := distractorCard s.config s.current_rule card (g 3) (g 4) (g 5)
  let d2 := distractorCard s.config s.current_rule card (g 6) (g 7) (g 8)
  let d3 := distractorCard s.config s.current_rule card (g 9) (g 10) (g 11)
  insertAt [d1, d2, d3] (g 0 % 4) m

/-- Modelled from the spec, §4.3/§4.4: evaluate a chosen option against
the presented card along the active rule attribute, append the trial
record, update score, streak and (through the switch policy) possibly the
hidden rule — all synchronously.  Returns the correctness boolean and the
updated instance. -/
def WCST.evaluate_choice (s : WCST) (card : Card) (choice : Nat)
    (options : List Card) : Bool × WCST :=
  let chosen := options.getD choice card
  let correct := matchesRule chosen card s.current_rule
  let u := switchUpdate wcstRules s.config.num_successes_before_switch
    s.current_rule s.streak correct s.entropy
  (correct,
    { s with
      current_rule := u.1
      streak := u.2.1
      entropy := u.2.2
      score := s.score + (if correct then 1 else 0)
      trial_count := s.trial_count + 1
      history := s.history ++ [⟨card, choice, correct, s.current_rule⟩] })

/-- One WCST trial input as fed by an orchestrator: presented card, chosen
index, option list. -/
abbrev WTrial := Card × Nat × List Card

/-- Drive a WCST instance through a list of evaluated trials. -/
def WCST.run (s : WCST) : List WTrial → WCST
  | [] => s
  | t :: ts => WCST.run (s.evaluate_choice t.1 t.2.1 t.2.2).2 ts

/-- Modelled from the spec, §4.5: `get_performance() -> (accuracy, score,
trial_count)` with accuracy = score / evaluated trials, defined as 0 when
no trials were evaluated.  Exact rational arithmetic stands in for the
Python float quotient. -/
def WCST.get_performance (s : WCST) : ℚ × Nat × Nat :=
  (if s.trial_count = 0 then 0 else (s.score : ℚ) / (s.trial_count : ℚ),
    s.score, s.trial_count)

/-- Modelled from the spec: the LNT configuration record (§3), matching
the constructor keywords exercised by `tests/test_integration.py`. -/
structure LNTConfig where
  num_trials : Nat := 25
  num_successes_before_switch : Nat := 6
deriving DecidableEq

/-- An LNT trial record: (stimulus, declared label, correctness boolean,
task active at evaluation time).  Modelled from the spec, §3. -/
structure LTrialRec where
  sequence : Char × Char
  choice : String
  correct : Bool
  task : String
deriving DecidableEq

/-- Modelled from the spec: the LNT instance state (§3), with the hidden
active task, counters, append-only history and explicit switch entropy. -/
structure LNT where
  config : LNTConfig
  current_task : String
  score : Nat
  streak : Nat
  trial_count : Nat
  history : List LTrialRec
  entropy : List Nat
deriving DecidableEq

/-- Modelled from the spec, §3/§4.2: LNT construction initializes the
hidden task to a uniformly random member of the enumerated task values. -/
def LNT.init (cfg : LNTConfig) (taskEnt : Nat) (switchEnt : List Nat) : LNT :=
  { config := cfg
    current_task := pickFrom lntTasks "letter" taskEnt
    score := 0
    streak := 0
    trial_count := 0
    history := []
    entropy := switchEnt }

/-- The vowel set of the spec, §4.3: {A,E,I,O,U}, case-insensitive. -/
def isVowel (c : Char) : Bool :=
  c.toLower == 'a' || c.toLower == 'e' || c.toLower == 'i' ||
    c.toLower == 'o' || c.toLower == 'u'

/-- The numeric value of a digit character. -/
def digitVal (c : Char) : Nat := c.toNat - '0'.toNat

/-- Modelled from the spec, §4.3: the intrinsic-domain correctness
predicate — a vowel/consonant label is scored purely on the letter half,
an even/odd label purely on the digit half, and any other label is
incorrect. -/
def intrinsicCorrect (seq : Char × Char) (choice : String) : Bool :=
  if choice = "vowel" then isVowel seq.1
  else if choice = "consonant" then !isVowel seq.1
  else if choice = "even" then digitVal seq.2 % 2 == 0
  else if choice = "odd" then digitVal seq.2 % 2 == 1
  else false

/-- The domain a declared label belongs to ("letter" or "number"),
spec §4.3. -/
def domainOf (choice : String) : String :=
  if choice = "vowel" || choice = "consonant" then "letter" else "number"

/-- Modelled from the spec, §4.3/§4.4: evaluate a declared label against
the sequence.  The returned boolean (and the recorded correctness) is the
intrinsic-domain predicate, independent of the active task; the
streak/switch bookkeeping counts a trial as a reinforced success only when
the label's domain also matches the active task. -/
def LNT.evaluate_response (s : LNT) (seq : Char × Char) (choice : String) :
    Bool × LNT :=
  let correct := intrinsicCorrect seq choice
  let reinforced := correct && (domainOf choice == s.current_task)
  let u := switchUpdate lntTasks s.config.num_successes_before_switch
    s.current_task s.streak reinforced s.entropy
  (correct,
    { s with
      current_task := u.1
      streak := u.2.1
      entropy := u.2.2
      score := s.score + (if correct then 1 else 0)
      trial_count := s.trial_count + 1
      history := s.history ++ [⟨seq, choice, correct, s.current_task⟩] })

/-- One LNT trial input: the sequence and the declared label. -/
abbrev LTrial := (Char × Char) × String

/-- Drive an LNT instance through a list of evaluated trials. -/
def LNT.run (s : LNT) : List LTrial → LNT
  | [] => s
  | t :: ts => LNT.run (s.evaluate_response t.1 t.2).2 ts

/-- Modelled from the spec, §4.5: the LNT performance tuple, identical
pattern to WCST. -/
def LNT.get_performance (s : LNT) : ℚ × Nat × Nat :=
  (if s.trial_count = 0 then 0 else (s.score : ℚ) / (s.trial_count : ℚ),
    s.score, s.trial_count)

/-- Character-list prefix test, used to model the regular-expression
matching of the response extractors. -/
def startsWithSeq : List Char → List Char → Bool
  | [], _ => true
  | _ :: _, [] => false
  | p :: ps, c :: cs => p == c && startsWithSeq ps cs

/-- Substring occurrence test over character lists (models Python's
`needle in haystack`). -/
def containsSeq (p : List Char) : List Char → Bool
  | [] => p.isEmpty
  | c :: cs => startsWithSeq p (c :: cs) || containsSeq p cs

/-- The lowercased character sequence of a response (models
`response.lower()` on the ASCII strings these experiments exchange). -/
def lowerChars (s : String) : List Char := s.toList.map Char.toLower

/-- Value of a run of decimal digit characters. -/
def digitsToNat (l : List Char) : Nat :=
  l.foldl (fun acc c => acc * 10 + (c.toNat - 48)) 0

/-- Attempt the regular expression `option\s?(\d+)` at the head of the
(already lowercased) character list: the literal `option`, at most one
whitespace character, then a maximal run of digits, whose value is
returned (`src/models/gemini.py` / `src/models/llama.py`,
`_extract_choice`). -/
def attemptOption (l : List Char) : Option Nat :=
  if startsWithSeq ("option".toList) l then
    match l.drop 6 with
    | [] => none
    | d :: ds =>
      if d.isWhitespace then
        match ds with
        | e :: _ =>
          if e.isDigit then some (digitsToNat (ds.takeWhile Char.isDigit))
          else none
        | [] => none
      else if d.isDigit then
        some (digitsToNat ((d :: ds).takeWhile Char.isDigit))
      else none
  else none

/-- Scan for the first position where `option\s?(\d+)` matches, as
`re.search` does (`src/models/gemini.py:33`). -/
def findOptionNum : List Char → Option Nat
  | [] => none
  | c :: cs =>
    match attemptOption (c :: cs) with
    | some n => some n
    | none => findOptionNum cs

/-- A run of characters parsed as a non-negative integer literal, or
`none` (helper for the `int(...)` model below). -/
def digitsValue (ds : List Char) : Option Int :=
  if !ds.isEmpty && ds.all Char.isDigit then some ((digitsToNat ds : Nat) : Int)
  else none

/-- Model of Python's `int(response.strip())` for the sign-and-ASCII-digit
literals these experiments exchange: strip surrounding whitespace, accept
an optional sign followed by a non-empty digit run, and signal `none`
where Python raises `ValueError`.  (Python additionally accepts
underscore digit separators and non-ASCII digits; those exotic literals
are treated as unparseable here.) -/
def pythonIntStr (s : String) : Option Int :=
  let t := ((s.toList.dropWhile Char.isWhitespace).reverse.dropWhile
    Char.isWhitespace).reverse
  match t with
  | '+' :: ds => digitsValue ds
  | '-' :: ds => (digitsValue ds).map fun v => -v
  | ds => digitsValue ds

/-- `GeminiWrapper._extract_choice` (`src/models/gemini.py:30-44`): if the
lowercased response mentions `option`, search it for `option\s?(\d+)` and
return that number minus one; otherwise (or when the search fails) parse
the whole stripped response as an integer minus one, and return `none`
where Python's `int` raises. -/
def GeminiWrapper._extract_choice (response : String) : Option Int :=
  let low := lowerChars response
  match (if containsSeq ("option".toList) low then findOptionNum low else none) with
  | some n => some ((n : Int) - 1)
  | none => (pythonIntStr response).map fun v => v - 1

/-- First match of the alternation `vowel|consonant|even|odd` in an
(already lowercased) character list, scanning positions left to right and
alternatives in the written order, as `re.findall(...)[0]` yields
(`src/models/gemini.py:46-49`). -/
def findLNLabel : List Char → Option String
  | [] => none
  | c :: cs =>
    if startsWithSeq ("vowel".toList) (c :: cs) then some "vowel"
    else if startsWithSeq ("consonant".toList) (c :: cs) then some "consonant"
    else if startsWithSeq ("even".toList) (c :: cs) then some "even"
    else if startsWithSeq ("odd".toList) (c :: cs) then some "odd"
    else findLNLabel cs

/-- `GeminiWrapper._extract_ln_response` (`src/models/gemini.py:46-49`):
the first occurrence of `vowel|consonant|even|odd` in the lowercased
response, or `none` when no label occurs. -/
def GeminiWrapper._extract_ln_response (response : String) : Option String :=
  findLNLabel (lowerChars response)

/-- `LlamaWrapper._extract_choice` (`src/models/llama.py:25-33`) is
textually identical to the Gemini extractor. -/
def LlamaWrapper._extract_choice : String → Option Int :=
  GeminiWrapper._extract_choice

/-- `LlamaWrapper._extract_ln_response` (`src/models/llama.py:35-38`) is
textually identical to the Gemini extractor. -/
def LlamaWrapper._extract_ln_response : String → Option String :=
  GeminiWrapper._extract_ln_response

/-- The per-trial body of the WCST orchestrator loop
(`experiments/run_wcst.py:72-88`), with the engine effect isolated: the
model's raw response is passed through `_extract_choice`; a `None`
extraction hits `continue`, leaving the engine untouched, otherwise
`evaluate_choice` advances the engine.  (Negative extracted indices never
reach the engine in-range path of the spec's precondition §4.3; the model
clamps them through `Int.toNat` purely to type the call.) -/
def runTrialWCST (s : WCST) (card : Card) (options : List Card)
    (response : String) : WCST :=
  match GeminiWrapper._extract_choice response with
  | none => s
  | some c => (s.evaluate_choice card c.toNat options).2

/-- The per-trial body of the LNT orchestrator loop
(`experiments/run_lnt.py:57-72`): a `None` extraction hits `continue`,
leaving the engine untouched, otherwise `evaluate_response` advances
it. -/
def runTrialLNT (s : LNT) (seq : Char × Char) (response : String) : LNT :=
  match GeminiWrapper._extract_ln_response response with
  | none => s
  | some c => (s.evaluate_response seq c).2

/-- `calculate_bounds` (`src/analysis/analyze_results.py:43-45`):
`required_successes / (required_successes + (num_tasks - 1))`, the
worst-case performance bound; exact rational division stands in for the
Python float quotient. -/
def calculate_bounds (num_tasks required_successes : Int) : ℚ :=
  (required_successes : ℚ) / ((required_successes : ℚ) + ((num_tasks : ℚ) - 1))

/-- A configuration whose attribute sets are duplicate-free and hold at
least two values each — the well-formedness §7 assumes (sets too small to
vary the non-active attributes are "a configuration error, not a runtime
fallback", §4.1). -/
def ValidConfig (cfg : WCSTConfig) : Prop :=
  cfg.shapes.Nodup ∧ cfg.colors.Nodup ∧ cfg.numbers.Nodup ∧
    2 ≤ cfg.shapes.length ∧ 2 ≤ cfg.colors.length ∧ 2 ≤ cfg.numbers.length

instance : DecidablePred ValidConfig := fun cfg => by
  unfold ValidConfig; infer_instance

/-- A card whose attributes are each drawn from the configured sets. -/
def validCard (cfg : WCSTConfig) (c : Card) : Prop :=
  c.1 ∈ cfg.shapes ∧ c.2.1 ∈ cfg.colors ∧ c.2.2 ∈ cfg.numbers

instance : ∀ cfg c, Decidable (validCard cfg c) := fun cfg c => by
  unfold validCard; infer_instance

/-- Whether a WCST trial input evaluates as correct under rule `r` —
exactly the correctness predicate computed inside `evaluate_choice`. -/
def wSuccess (r : String) (t : WTrial) : Bool :=
  matchesRule (t.2.2.getD t.2.1 t.1) t.1 r

/-- Whether an LNT trial input is a reinforced success under task `tk` —
exactly the streak predicate computed inside `evaluate_response`. -/
def lSuccess (tk : String) (t : LTrial) : Bool :=
  intrinsicCorrect t.1 t.2 && (domainOf t.2 == tk)

/-! ## Basic facts about the randomness primitives -/

theorem pickFrom_mem {l : List α} (d : α) (e : Nat) (h : l ≠ []) :
    pickFrom l d e ∈ l := by
  have hlen : e % l.length < l.length :=
    Nat.mod_lt _ (List.length_pos.mpr h)
  rw [pickFrom, List.getD_eq_getElem l d hlen]
  exact List.getElem_mem hlen

theorem shuffleGo_perm [DecidableEq α] :
    ∀ (fuel : Nat) (ent : List Nat) (l : List α), l.length ≤ fuel →
      (shuffleGo fuel ent l).Perm l := by
  intro fuel
  induction fuel with
  | zero =>
    intro ent l h
    rw [List.length_eq_zero.mp (Nat.le_zero.mp h)]
    rfl
  | succ fuel ih =>
    intro ent l h
    match l with
    | [] => rfl
    | x :: xs =>
      have hy : pickFrom (x :: xs) x (ent.headD 0) ∈ x :: xs :=
        pickFrom_mem x _ (by simp)
      have herase : ((x :: xs).erase (pickFrom (x :: xs) x (ent.headD 0))).length ≤ fuel := by
        rw [List.length_erase_of_mem hy]
        simpa using Nat.le_of_succ_le_succ h
      have hstep : shuffleGo (fuel + 1) ent (x :: xs) =
          pickFrom (x :: xs) x (ent.headD 0) ::
            shuffleGo fuel ent.tail ((x :: xs).erase (pickFrom (x :: xs) x (ent.headD 0))) := rfl
      rw [hstep]
      exact List.Perm.trans (List.Perm.cons _ (ih ent.tail _ herase))
        (List.perm_cons_erase hy).symm

theorem shuffle_perm [DecidableEq α] (ent : List Nat) (l : List α) :
    (shuffle ent l).Perm l :=
  shuffleGo_perm l.length ent l le_rfl

theorem shuffle_length [DecidableEq α] (ent : List Nat) (l : List α) :
    (shuffle ent l).length = l.length :=
  (shuffle_perm ent l).length_eq

theorem shuffle_mem [DecidableEq α] {ent : List Nat} {l : List α} {x : α}
    (h : x ∈ shuffle ent l) : x ∈ l :=
  (shuffle_perm ent l).mem_iff.mp h

/-! ## The deck -/

theorem flatMap_const_length {l : List α} {f : α → List β} {k : Nat}
    (h : ∀ a ∈ l, (f a).length = k) : (l.flatMap f).length = l.length * k := by
  induction l with
  | nil => simp
  | cons x xs ih =>
    simp only [List.flatMap_cons, List.length_append, List.length_cons]
    rw [h x (by simp), ih fun a ha => h a (by simp [ha])]
    ring

theorem crossDeck_length (cfg : WCSTConfig) :
    (crossDeck cfg).length =
      cfg.shapes.length * (cfg.colors.length * cfg.numbers.length) := by
  rw [crossDeck]
  refine flatMap_const_length fun sh _ => ?_
  refine flatMap_const_length fun co _ => ?_
  exact List.length_map _ _

theorem crossDeck_mem {cfg : WCSTConfig} {c : Card} (h : c ∈ crossDeck cfg) :
    validCard cfg c := by
  simp only [crossDeck, List.mem_flatMap, List.mem_map] at h
  obtain ⟨sh, hsh, co, hco, n, hn, rfl⟩ := h
  exact ⟨hsh, hco, hn⟩

theorem baseDeck_length (cfg : WCSTConfig) :
    (baseDeck cfg).length =
      cfg.multiplier * (cfg.shapes.length * (cfg.colors.length * cfg.numbers.length)) := by
  rw [baseDeck]
  induction cfg.multiplier with
  | zero => simp
  | succ m ih =>
    simp only [List.replicate_succ, List.flatten_cons, List.length_append, ih,
      crossDeck_length]
    ring

theorem baseDeck_mem {cfg : WCSTConfig} {c : Card} (h : c ∈ baseDeck cfg) :
    validCard cfg c := by
  simp only [baseDeck, List.mem_flatten] at h
  obtain ⟨l, hl, hc⟩ := h
  rw [List.eq_of_mem_replicate hl] at hc
  exact crossDeck_mem hc

/-! ## The switch policy -/

theorem switchUpdate_fail (vals : List String) (n : Nat) (cur : String)
    (k : Nat) (ent : List Nat) :
    switchUpdate vals n cur k false ent = (cur, 0, ent) := rfl

theorem switchUpdate_success_lt {n k : Nat} (vals : List String)
    (cur : String) (ent : List Nat) (h : k + 1 < n) :
    switchUpdate vals n cur k true ent = (cur, k + 1, ent) := by
  rw [switchUpdate, if_pos rfl, if_neg (by omega)]

theorem switchUpdate_success_ge {n k : Nat} (vals : List String)
    (cur : String) (ent : List Nat) (h : n ≤ k + 1) :
    switchUpdate vals n cur k true ent =
      (pickDiff vals cur (ent.headD 0), 0, ent.tail) := by
  rw [switchUpdate, if_pos rfl, if_pos h]

theorem pickDiff_spec {vals : List String} {cur : String} (e : Nat)
    (h : vals.filter (fun v => v != cur) ≠ []) :
    pickDiff vals cur e ∈ vals ∧ pickDiff vals cur e ≠ cur := by
  have hm : pickDiff vals cur e ∈ vals.filter (fun v => v != cur) := by
    rw [pickDiff]
    exact pickFrom_mem cur e h
  rw [List.mem_filter] at hm
  exact ⟨hm.1, bne_iff_ne.mp hm.2⟩

theorem wcstRules_filter_ne (cur : String) :
    wcstRules.filter (fun v => v != cur) ≠ [] := by
  by_cases h : cur = "shape"
  · subst h; decide
  · refine List.ne_nil_of_mem (a := "shape") ?_
    rw [List.mem_filter]
    exact ⟨by decide, bne_iff_ne.mpr fun e => h e.symm⟩

theorem lntTasks_filter_ne (cur : String) :
    lntTasks.filter (fun v => v != cur) ≠ [] := by
  by_cases h : cur = "letter"
  · subst h; decide
  · refine List.ne_nil_of_mem (a := "letter") ?_
    rw [List.mem_filter]
    exact ⟨by decide, bne_iff_ne.mpr fun e => h e.symm⟩

theorem switchUpdate_fst_mem {vals : List String} {cur : String}
    (n k : Nat) (b : Bool) (ent : List Nat) (hcur : cur ∈ vals)
    (hfil : ∀ c : String, vals.filter (fun v => v != c) ≠ []) :
    (switchUpdate vals n cur k b ent).1 ∈ vals := by
  rw [switchUpdate]
  split
  · split
    · exact (pickDiff_spec _ (hfil cur)).1
    · exact hcur
  · exact hcur

/-! ## WCST evaluation-step facts -/

theorem WCST.evaluate_config (s : WCST) (c : Card) (i : Nat) (o : List Card) :
    ((s.evaluate_choice c i o).2).config = s.config := rfl

theorem WCST.evaluate_deck (s : WCST) (c : Card) (i : Nat) (o : List Card) :
    ((s.evaluate_choice c i o).2).deck = s.deck := rfl

theorem WCST.evaluate_trial_count (s : WCST) (c : Card) (i : Nat) (o : List Card) :
    ((s.evaluate_choice c i o).2).trial_count = s.trial_count + 1 := rfl

theorem WCST.evaluate_history (s : WCST) (c : Card) (i : Nat) (o : List Card) :
    ((s.evaluate_choice c i o).2).history =
      s.history ++ [⟨c, i, wSuccess s.current_rule (c, i, o), s.current_rule⟩] := rfl

theorem WCST.evaluate_score (s : WCST) (c : Card) (i : Nat) (o : List Card) :
    ((s.evaluate_choice c i o).2).score =
      s.score + (if wSuccess s.current_rule (c, i, o) then 1 else 0) := rfl

theorem WCST.evaluate_fst (s : WCST) (c : Card) (i : Nat) (o : List Card) :
    (s.evaluate_choice c i o).1 = wSuccess s.current_rule (c, i, o) := rfl

theorem WCST.evaluate_rule (s : WCST) (c : Card) (i : Nat) (o : List Card) :
    ((s.evaluate_choice c i o).2).current_rule =
      (switchUpdate wcstRules s.config.num_successes_before_switch
        s.current_rule s.streak (wSuccess s.current_rule (c, i, o)) s.entropy).1 := rfl

theorem WCST.evaluate_streak (s : WCST) (c : Card) (i : Nat) (o : List Card) :
    ((s.evaluate_choice c i o).2).streak =
      (switchUpdate wcstRules s.config.num_successes_before_switch
        s.current_rule s.streak (wSuccess s.current_rule (c, i, o)) s.entropy).2.1 := rfl

theorem WCST.evaluate_rule_mem (s : WCST) (c : Card) (i : Nat) (o : List Card)
    (h : s.current_rule ∈ wcstRules) :
    ((s.evaluate_choice c i o).2).current_rule ∈ wcstRules := by
  rw [WCST.evaluate_rule]
  exact switchUpdate_fst_mem _ _ _ _ h wcstRules_filter_ne

/-! ## WCST run facts -/

theorem WCST.run_append (s : WCST) (a b : List WTrial) :
    WCST.run s (a ++ b) = WCST.run (WCST.run s a) b := by
  induction a generalizing s with
  | nil => rfl
  | cons t ts ih =>
    rw [List.cons_append, WCST.run, WCST.run]
    exact ih _

theorem WCST.run_config (s : WCST) (ts : List WTrial) :
    (WCST.run s ts).config = s.config := by
  induction ts generalizing s with
  | nil => rfl
  | cons t ts ih => rw [WCST.run, ih, WCST.evaluate_config]

theorem WCST.run_deck (s : WCST) (ts : List WTrial) :
    (WCST.run s ts).deck = s.deck := by
  induction ts generalizing s with
  | nil => rfl
  | cons t ts ih => rw [WCST.run, ih, WCST.evaluate_deck]

theorem WCST.run_trial_count (s : WCST) (ts : List WTrial) :
    (WCST.run s ts).trial_count = s.trial_count + ts.length := by
  induction ts generalizing s with
  | nil => rfl
  | cons t ts ih =>
    rw [WCST.run, ih, WCST.evaluate_trial_count, List.length_cons]
    omega

theorem WCST.run_history_length (s : WCST) (ts : List WTrial) :
    (WCST.run s ts).history.length = s.history.length + ts.length := by
  induction ts generalizing s with
  | nil => rfl
  | cons t ts ih =>
    rw [WCST.run, ih, WCST.evaluate_history]
    simp only [List.length_append, List.length_cons, List.length_nil]
    omega

theorem WCST.run_score_inv (s : WCST) (ts : List WTrial)
    (h : s.score = s.history.countP (fun r => r.correct)) :
    (WCST.run s ts).score =
      (WCST.run s ts).history.countP (fun r => r.correct) := by
  induction ts generalizing s with
  | nil => exact h
  | cons t ts ih =>
    rw [WCST.run]
    refine ih _ ?_
    rw [WCST.evaluate_score, WCST.evaluate_history, List.countP_append, ← h]
    simp [List.countP_cons]

theorem WCST.run_rule_mem (s : WCST) (ts : List WTrial)
    (h : s.current_rule ∈ wcstRules) :
    (WCST.run s ts).current_rule ∈ wcstRules := by
  induction ts generalizing s with
  | nil => exact h
  | cons t ts ih => exact ih _ (WCST.evaluate_rule_mem s _ _ _ h)

theorem WCST.init_rule_mem (cfg : WCSTConfig) (re : Nat) (se we : List Nat) :
    (WCST.init cfg re se we).current_rule ∈ wcstRules :=
  pickFrom_mem _ _ (by decide)

/-! ## LNT evaluation-step facts -/

theorem LNT.eval_config (s : LNT) (q : Char × Char) (c : String) :
    ((s.evaluate_response q c).2).config = s.config := rfl

theorem LNT.eval_trial_count (s : LNT) (q : Char × Char) (c : String) :
    ((s.evaluate_response q c).2).trial_count = s.trial_count + 1 := rfl

theorem LNT.eval_history (s : LNT) (q : Char × Char) (c : String) :
    ((s.evaluate_response q c).2).history =
      s.history ++ [⟨q, c, intrinsicCorrect q c, s.current_task⟩] := rfl

theorem LNT.eval_score (s : LNT) (q : Char × Char) (c : String) :
    ((s.evaluate_response q c).2).score =
      s.score + (if intrinsicCorrect q c then 1 else 0) := rfl

theorem LNT.eval_fst (s : LNT) (q : Char × Char) (c : String) :
    (s.evaluate_response q c).1 = intrinsicCorrect q c := rfl

theorem LNT.evaluate_task (s : LNT) (q : Char × Char) (c : String) :
    ((s.evaluate_response q c).2).current_task =
      (switchUpdate lntTasks s.config.num_successes_before_switch
        s.current_task s.streak (lSuccess s.current_task (q, c)) s.entropy).1 := rfl

theorem LNT.eval_streak (s : LNT) (q : Char × Char) (c : String) :
    ((s.evaluate_response q c).2).streak =
      (switchUpdate lntTasks s.config.num_successes_before_switch
        s.current_task s.streak (lSuccess s.current_task (q, c)) s.entropy).2.1 := rfl

theorem LNT.evaluate_task_mem (s : LNT) (q : Char × Char) (c : String)
    (h : s.current_task ∈ lntTasks) :
    ((s.evaluate_response q c).2).current_task ∈ lntTasks := by
  rw [LNT.evaluate_task]
  exact switchUpdate_fst_mem _ _ _ _ h lntTasks_filter_ne

/-! ## LNT run facts -/

theorem LNT.lrun_append (s : LNT) (a b : List LTrial) :
    LNT.run s (a ++ b) = LNT.run (LNT.run s a) b := by
  induction a generalizing s with
  | nil => rfl
  | cons t ts ih =>
    rw [List.cons_append, LNT.run, LNT.run]
    exact ih _

theorem LNT.lrun_config (s : LNT) (ts : List LTrial) :
    (LNT.run s ts).config = s.config := by
  induction ts generalizing s with
  | nil => rfl
  | cons t ts ih => rw [LNT.run, ih, LNT.eval_config]

theorem LNT.lrun_trial_count (s : LNT) (ts : List LTrial) :
    (LNT.run s ts).trial_count = s.trial_count + ts.length := by
  induction ts generalizing s with
  | nil => rfl
  | cons t ts ih =>
    rw [LNT.run, ih, LNT.eval_trial_count, List.length_cons]
    omega

theorem LNT.lrun_history_length (s : LNT) (ts : List LTrial) :
    (LNT.run s ts).history.length = s.history.length + ts.length := by
  induction ts generalizing s with
  | nil => rfl
  | cons t ts ih =>
    rw [LNT.run, ih, LNT.eval_history]
    simp only [List.length_append, List.length_cons, List.length_nil]
    omega

theorem LNT.lrun_score_inv (s : LNT) (ts : List LTrial)
    (h : s.score = s.history.countP (fun r => r.correct)) :
    (LNT.run s ts).score =
      (LNT.run s ts).history.countP (fun r => r.correct) := by
  induction ts generalizing s with
  | nil => exact h
  | cons t ts ih =>
    rw [LNT.run]
    refine ih _ ?_
    rw [LNT.eval_score, LNT.eval_history, List.countP_append, ← h]
    simp [List.countP_cons]

theorem LNT.init_task_mem (cfg : LNTConfig) (te : Nat) (we : List Nat) :
    (LNT.init cfg te we).current_task ∈ lntTasks :=
  pickFrom_mem _ _ (by decide)

/-! ## Streak runs below the threshold -/

theorem WCST.run_success_lt :
    ∀ (ts : List WTrial) (s : WCST),
      (∀ t ∈ ts, wSuccess s.current_rule t = true) →
      s.streak + ts.length < s.config.num_successes_before_switch →
      (WCST.run s ts).current_rule = s.current_rule ∧
        (WCST.run s ts).streak = s.streak + ts.length ∧
        (WCST.run s ts).config = s.config := by
  intro ts
  induction ts with
  | nil => exact fun s _ _ => ⟨rfl, by simp [WCST.run], rfl⟩
  | cons t ts ih =>
    intro s hall hlen
    have hsucc : wSuccess s.current_rule (t.1, t.2.1, t.2.2) = true :=
      hall t (by simp)
    have hlt : s.streak + 1 < s.config.num_successes_before_switch := by
      simp only [List.length_cons] at hlen
      omega
    have hr : ((s.evaluate_choice t.1 t.2.1 t.2.2).2).current_rule = s.current_rule := by
      rw [WCST.evaluate_rule, hsucc, switchUpdate_success_lt _ _ _ hlt]
    have hst : ((s.evaluate_choice t.1 t.2.1 t.2.2).2).streak = s.streak + 1 := by
      rw [WCST.evaluate_streak, hsucc, switchUpdate_success_lt _ _ _ hlt]
    have hcf : ((s.evaluate_choice t.1 t.2.1 t.2.2).2).config = s.config :=
      WCST.evaluate_config s _ _ _
    have key := ih ((s.evaluate_choice t.1 t.2.1 t.2.2).2)
      (fun u hu => by rw [hr]; exact hall u (by simp [hu]))
      (by rw [hst, hcf]; simp only [List.length_cons] at hlen; omega)
    refine ⟨key.1.trans hr, ?_, key.2.2.trans hcf⟩
    have hunfold : WCST.run s (t :: ts) =
        WCST.run ((s.evaluate_choice t.1 t.2.1 t.2.2).2) ts := rfl
    rw [hunfold, key.2.1, hst, List.length_cons]
    omega

theorem LNT.lrun_success_lt :
    ∀ (ts : List LTrial) (s : LNT),
      (∀ t ∈ ts, lSuccess s.current_task t = true) →
      s.streak + ts.length < s.config.num_successes_before_switch →
      (LNT.run s ts).current_task = s.current_task ∧
        (LNT.run s ts).streak = s.streak + ts.length ∧
        (LNT.run s ts).config = s.config := by
  intro ts
  induction ts with
  | nil => exact fun s _ _ => ⟨rfl, by simp [LNT.run], rfl⟩
  | cons t ts ih =>
    intro s hall hlen
    have hsucc : lSuccess s.current_task (t.1, t.2) = true := hall t (by simp)
    have hlt : s.streak + 1 < s.config.num_successes_before_switch := by
      simp only [List.length_cons] at hlen
      omega
    have hr : ((s.evaluate_response t.1 t.2).2).current_task = s.current_task := by
      rw [LNT.evaluate_task, hsucc, switchUpdate_success_lt _ _ _ hlt]
    have hst : ((s.evaluate_response t.1 t.2).2).streak = s.streak + 1 := by
      rw [LNT.eval_streak, hsucc, switchUpdate_success_lt _ _ _ hlt]
    have hcf : ((s.evaluate_response t.1 t.2).2).config = s.config :=
      LNT.eval_config s _ _
    have key := ih ((s.evaluate_response t.1 t.2).2)
      (fun u hu => by rw [hr]; exact hall u (by simp [hu]))
      (by rw [hst, hcf]; simp only [List.length_cons] at hlen; omega)
    refine ⟨key.1.trans hr, ?_, key.2.2.trans hcf⟩
    have hunfold : LNT.run s (t :: ts) =
        LNT.run ((s.evaluate_response t.1 t.2).2) ts := rfl
    rw [hunfold, key.2.1, hst, List.length_cons]
    omega

/-! ## The threshold-crossing step and the failure step -/

theorem WCST.run_switch (s : WCST) (ts : List WTrial) (tl : WTrial)
    (h0 : s.streak = 0)
    (hlen : ts.length + 1 = s.config.num_successes_before_switch)
    (hall : ∀ t ∈ ts, wSuccess s.current_rule t = true)
    (hl : wSuccess s.current_rule tl = true) :
    (WCST.run s (ts ++ [tl])).current_rule ≠ s.current_rule ∧
      (WCST.run s (ts ++ [tl])).current_rule ∈ wcstRules ∧
      (WCST.run s (ts ++ [tl])).streak = 0 := by
  rw [WCST.run_append]
  have hbelow := WCST.run_success_lt ts s hall (by omega)
  obtain ⟨hr1, hs1, hc1⟩ := hbelow
  have hsucc : wSuccess (WCST.run s ts).current_rule (tl.1, tl.2.1, tl.2.2) = true := by
    rw [hr1]; exact hl
  have hge : (WCST.run s ts).config.num_successes_before_switch ≤
      (WCST.run s ts).streak + 1 := by
    rw [hs1, hc1]; omega
  have hrun1 : WCST.run (WCST.run s ts) [tl] =
      ((WCST.run s ts).evaluate_choice tl.1 tl.2.1 tl.2.2).2 := rfl
  rw [hrun1]
  have hrule := WCST.evaluate_rule (WCST.run s ts) tl.1 tl.2.1 tl.2.2
  have hstreak := WCST.evaluate_streak (WCST.run s ts) tl.1 tl.2.1 tl.2.2
  rw [hsucc, switchUpdate_success_ge _ _ _ hge] at hrule hstreak
  have hpick := pickDiff_spec ((WCST.run s ts).entropy.headD 0)
    (wcstRules_filter_ne (WCST.run s ts).current_rule)
  refine ⟨?_, ?_, hstreak⟩
  · rw [hrule, ← hr1]; exact hpick.2
  · rw [hrule]; exact hpick.1

theorem WCST.evaluate_fail (s : WCST) (t : WTrial)
    (hf : wSuccess s.current_rule t = false) :
    ((s.evaluate_choice t.1 t.2.1 t.2.2).2).current_rule = s.current_rule ∧
      ((s.evaluate_choice t.1 t.2.1 t.2.2).2).streak = 0 := by
  have hf' : wSuccess s.current_rule (t.1, t.2.1, t.2.2) = false := hf
  constructor
  · rw [WCST.evaluate_rule, hf', switchUpdate_fail]
  · rw [WCST.evaluate_streak, hf', switchUpdate_fail]

theorem WCST.run_no_premature (s : WCST) (ts : List WTrial) (f : WTrial)
    (h0 : s.streak = 0)
    (hlen : ts.length + 1 = s.config.num_successes_before_switch)
    (hall : ∀ t ∈ ts, wSuccess s.current_rule t = true)
    (hf : wSuccess s.current_rule f = false) :
    (WCST.run s (ts ++ [f])).current_rule = s.current_rule ∧
      (WCST.run s (ts ++ [f])).streak = 0 := by
  rw [WCST.run_append]
  obtain ⟨hr1, hs1, hc1⟩ := WCST.run_success_lt ts s hall (by omega)
  have hrun1 : WCST.run (WCST.run s ts) [f] =
      ((WCST.run s ts).evaluate_choice f.1 f.2.1 f.2.2).2 := rfl
  rw [hrun1]
  have hfail := WCST.evaluate_fail (WCST.run s ts) f (by rw [hr1]; exact hf)
  exact ⟨hfail.1.trans hr1, hfail.2⟩

theorem LNT.lrun_switch (s : LNT) (ts : List LTrial) (tl : LTrial)
    (h0 : s.streak = 0)
    (hlen : ts.length + 1 = s.config.num_successes_before_switch)
    (hall : ∀ t ∈ ts, lSuccess s.current_task t = true)
    (hl : lSuccess s.current_task tl = true) :
    (LNT.run s (ts ++ [tl])).current_task ≠ s.current_task ∧
      (LNT.run s (ts ++ [tl])).current_task ∈ lntTasks ∧
      (LNT.run s (ts ++ [tl])).streak = 0 := by
  rw [LNT.lrun_append]
  obtain ⟨hr1, hs1, hc1⟩ := LNT.lrun_success_lt ts s hall (by omega)
  have hsucc : lSuccess (LNT.run s ts).current_task (tl.1, tl.2) = true := by
    rw [hr1]; exact hl
  have hge : (LNT.run s ts).config.num_successes_before_switch ≤
      (LNT.run s ts).streak + 1 := by
    rw [hs1, hc1]; omega
  have hrun1 : LNT.run (LNT.run s ts) [tl] =
      ((LNT.run s ts).evaluate_response tl.1 tl.2).2 := rfl
  rw [hrun1]
  have hrule := LNT.evaluate_task (LNT.run s ts) tl.1 tl.2
  have hstreak := LNT.eval_streak (LNT.run s ts) tl.1 tl.2
  rw [hsucc, switchUpdate_success_ge _ _ _ hge] at hrule hstreak
  have hpick := pickDiff_spec ((LNT.run s ts).entropy.headD 0)
    (lntTasks_filter_ne (LNT.run s ts).current_task)
  refine ⟨?_, ?_, hstreak⟩
  · rw [hrule, ← hr1]; exact hpick.2
  · rw [hrule]; exact hpick.1

theorem LNT.eval_fail (s : LNT) (t : LTrial)
    (hf : lSuccess s.current_task t = false) :
    ((s.evaluate_response t.1 t.2).2).current_task = s.current_task ∧
      ((s.evaluate_response t.1 t.2).2).streak = 0 := by
  have hf' : lSuccess s.current_task (t.1, t.2) = false := hf
  constructor
  · rw [LNT.evaluate_task, hf', switchUpdate_fail]
  · rw [LNT.eval_streak, hf', switchUpdate_fail]

theorem LNT.lrun_no_premature (s : LNT) (ts : List LTrial) (f : LTrial)
    (h0 : s.streak = 0)
    (hlen : ts.length + 1 = s.config.num_successes_before_switch)
    (hall : ∀ t ∈ ts, lSuccess s.current_task t = true)
    (hf : lSuccess s.current_task f = false) :
    (LNT.run s (ts ++ [f])).current_task = s.current_task ∧
      (LNT.run s (ts ++ [f])).streak = 0 := by
  rw [LNT.lrun_append]
  obtain ⟨hr1, hs1, hc1⟩ := LNT.lrun_success_lt ts s hall (by omega)
  have hrun1 : LNT.run (LNT.run s ts) [f] =
      ((LNT.run s ts).evaluate_response f.1 f.2).2 := rfl
  rw [hrun1]
  have hfail := LNT.eval_fail (LNT.run s ts) f (by rw [hr1]; exact hf)
  exact ⟨hfail.1.trans hr1, hfail.2⟩

/-! ## Option generation -/

theorem otherVal_spec [DecidableEq α] {set : List α} (v : α) (e : Nat)
    (hn : set.Nodup) (hl : 2 ≤ set.length) :
    otherVal set v e ∈ set ∧ otherVal set v e ≠ v := by
  have hex : ∃ w ∈ set, w ≠ v := by
    match set, hn, hl with
    | a :: b :: rest, hn, _ =>
      have hab : a ≠ b := by
        rcases List.nodup_cons.mp hn with ⟨hna, -⟩
        exact fun h => hna (by rw [h]; exact List.mem_cons_self b rest)
      by_cases hav : a = v
      · exact ⟨b, by simp, fun hbv => hab (by rw [hav, hbv])⟩
      · exact ⟨a, by simp, hav⟩
  obtain ⟨w, hw, hwv⟩ := hex
  have hfil : set.filter (fun x => x != v) ≠ [] :=
    List.ne_nil_of_mem (List.mem_filter.mpr ⟨hw, bne_iff_ne.mpr hwv⟩)
  have hm : otherVal set v e ∈ set.filter (fun x => x != v) :=
    pickFrom_mem v e hfil
  rw [List.mem_filter] at hm
  exact ⟨hm.1, bne_iff_ne.mp hm.2⟩

theorem pickFrom_mem_of_two [DecidableEq α] {set : List α} (v : α) (e : Nat)
    (hl : 2 ≤ set.length) : pickFrom set v e ∈ set :=
  pickFrom_mem v e (List.ne_nil_of_length_pos (by omega))

theorem matchingCard_matches (cfg : WCSTConfig) (rule : String) (c : Card)
    (e1 e2 : Nat) :
    matchesRule (matchingCard cfg rule c e1 e2) c rule = true := by
  by_cases h1 : rule = "shape" <;> by_cases h2 : rule = "color" <;>
    simp [matchingCard, matchesRule, h1, h2]

theorem matchingCard_valid (cfg : WCSTConfig) (rule : String) (c : Card)
    (e1 e2 : Nat) (hcfg : ValidConfig cfg) (hc : validCard cfg c) :
    validCard cfg (matchingCard cfg rule c e1 e2) := by
  obtain ⟨hsn, hcn, hnn, hs2, hc2, hn2⟩ := hcfg
  obtain ⟨hc1, hc21, hc22⟩ := hc
  by_cases h1 : rule = "shape" <;> by_cases h2 : rule = "color" <;>
    exact ⟨by simp [matchingCard, h1, h2,
        (otherVal_spec _ _ hsn hs2).1, hc1],
      by simp [matchingCard, h1, h2, (otherVal_spec _ _ hcn hc2).1, hc21],
      by simp [matchingCard, h1, h2, (otherVal_spec _ _ hnn hn2).1, hc22]⟩

theorem distractorCard_not_matches (cfg : WCSTConfig) (rule : String)
    (c : Card) (e1 e2 e3 : Nat) (hcfg : ValidConfig cfg) :
    matchesRule (distractorCard cfg rule c e1 e2 e3) c rule = false := by
  obtain ⟨hsn, hcn, hnn, hs2, hc2, hn2⟩ := hcfg
  by_cases h1 : rule = "shape" <;> by_cases h2 : rule = "color" <;>
    simp [distractorCard, matchesRule, h1, h2,
      (otherVal_spec c.1 e1 hsn hs2).2, (otherVal_spec c.2.1 e2 hcn hc2).2,
      (otherVal_spec c.2.2 e3 hnn hn2).2]

theorem distractorCard_valid (cfg : WCSTConfig) (rule : String) (c : Card)
    (e1 e2 e3 : Nat) (hcfg : ValidConfig cfg) :
    validCard cfg (distractorCard cfg rule c e1 e2 e3) := by
  obtain ⟨hsn, hcn, hnn, hs2, hc2, hn2⟩ := hcfg
  by_cases h1 : rule = "shape" <;> by_cases h2 : rule = "color" <;>
    exact ⟨by simp [distractorCard, h1, h2, (otherVal_spec _ e1 hsn hs2).1,
        pickFrom_mem_of_two _ _ hs2],
      by simp [distractorCard, h1, h2, (otherVal_spec _ e2 hcn hc2).1,
        pickFrom_mem_of_two _ _ hc2],
      by simp [distractorCard, h1, h2, (otherVal_spec _ e3 hnn hn2).1,
        pickFrom_mem_of_two _ _ hn2]⟩

theorem length_insertAt (l : List α) (i : Nat) (x : α) :
    (insertAt l i x).length = l.length + 1 := by
  rw [insertAt, List.length_append, List.length_cons]
  conv_rhs => rw [← List.take_append_drop i l, List.length_append]
  omega

theorem mem_insertAt {l : List α} {i : Nat} {x y : α}
    (h : y ∈ insertAt l i x) : y = x ∨ y ∈ l := by
  rw [insertAt, List.mem_append, List.mem_cons] at h
  rcases h with h | h | h
  · exact Or.inr ((List.take_sublist i l).subset h)
  · exact Or.inl h
  · exact Or.inr ((List.drop_sublist i l).subset h)

theorem countP_insertAt (p : α → Bool) (l : List α) (i : Nat) (x : α) :
    (insertAt l i x).countP p = l.countP p + (if p x then 1 else 0) := by
  rw [insertAt, List.countP_append, List.countP_cons]
  conv_rhs => rw [← List.take_append_drop i l, List.countP_append]
  omega

theorem WCST.generate_options_spec (s : WCST) (ent : List Nat) (card : Card)
    (hcfg : ValidConfig s.config) (hcard : validCard s.config card) :
    (s.generate_options ent card).length = 4 ∧
      (∀ o ∈ s.generate_options ent card, validCard s.config o) ∧
      (s.generate_options ent card).countP
        (fun o => matchesRule o card s.current_rule) = 1 := by
  rw [WCST.generate_options]
  refine ⟨length_insertAt _ _ _, ?_, ?_⟩
  · intro o ho
    rcases mem_insertAt ho with h | h
    · rw [h]; exact matchingCard_valid _ _ _ _ _ hcfg hcard
    · simp only [List.mem_cons, List.not_mem_nil, or_false] at h
      rcases h with h | h | h <;>
        (rw [h]; exact distractorCard_valid _ _ _ _ _ _ hcfg)
  · rw [countP_insertAt]
    simp [List.countP_cons, distractorCard_not_matches _ _ _ _ _ _ hcfg,
      matchingCard_matches]

/-! ## Extractor vocabulary -/

theorem findLNLabel_getD_mem :
    ∀ l : List Char,
      (findLNLabel l).getD "vowel" ∈ ["vowel", "consonant", "even", "odd"] := by
  intro l
  induction l with
  | nil => simp [findLNLabel]
  | cons c cs ih =>
    rw [findLNLabel]
    split
    · simp
    · split
      · simp
      · split
        · simp
        · split
          · simp
          · exact ih

/-! ## The claims -/

/-- Claim C1: every WCST instance constructed with configuration
(multiplier, shapes, colors, numbers) — here followed through an arbitrary
sequence of evaluated trials — has a deck of length
`multiplier * |shapes| * |colors| * |numbers|` whose every element is a
triple of members of the configured sets, and the deck is never
regenerated or mutated for the lifetime of the instance (it equals the
construction-time deck after any run). -/
theorem claim_C1 (cfg : WCSTConfig) (re : Nat) (se we : List Nat)
    (ts : List WTrial) :
    (WCST.run (WCST.init cfg re se we) ts).deck.length =
        cfg.multiplier *
          (cfg.shapes.length * (cfg.colors.length * cfg.numbers.length)) ∧
      (∀ c ∈ (WCST.run (WCST.init cfg re se we) ts).deck, validCard cfg c) ∧
      (WCST.run (WCST.init cfg re se we) ts).deck =
        (WCST.init cfg re se we).deck := by
  have hdeck := WCST.run_deck (WCST.init cfg re se we) ts
  refine ⟨?_, ?_, hdeck⟩
  · rw [hdeck]
    show (shuffle se (baseDeck cfg)).length = _
    rw [shuffle_length, baseDeck_length]
  · intro c hc
    rw [hdeck] at hc
    exact baseDeck_mem (shuffle_mem hc)

/-- Claim C2: for every card drawn from the deck of a validly configured
WCST instance (reached by any sequence of evaluated trials),
`generate_options(card)` returns exactly 4 candidate cards, each a valid
combination from the configured sets, and exactly one of them agrees with
the presented card on the currently active rule attribute. -/
theorem claim_C2 (cfg : WCSTConfig) (re : Nat) (se we : List Nat)
    (ts : List WTrial) (ent : List Nat) (card : Card)
    (hcfg : ValidConfig cfg)
    (hcard : card ∈ (WCST.run (WCST.init cfg re se we) ts).deck) :
    ((WCST.run (WCST.init cfg re se we) ts).generate_options ent card).length = 4 ∧
      (∀ o ∈ (WCST.run (WCST.init cfg re se we) ts).generate_options ent card,
        validCard cfg o) ∧
      ((WCST.run (WCST.init cfg re se we) ts).generate_options ent card).countP
        (fun o => matchesRule o card
          (WCST.run (WCST.init cfg re se we) ts).current_rule) = 1 := by
  have hconf : (WCST.run (WCST.init cfg re se we) ts).config = cfg :=
    WCST.run_config _ _
  have hv : validCard (WCST.run (WCST.init cfg re se we) ts).config card := by
    rw [hconf]
    rw [WCST.run_deck] at hcard
    exact baseDeck_mem (shuffle_mem hcard)
  have hspec := WCST.generate_options_spec (WCST.run (WCST.init cfg re se we) ts)
    ent card (by rw [hconf]; exact hcfg) hv
  refine ⟨hspec.1, ?_, hspec.2.2⟩
  intro o ho
  have := hspec.2.1 o ho
  rwa [hconf] at this

/-- Claim C5: for every LNT instance, the boolean returned by
`evaluate_response` is independent of the currently active task, and it
scores a declared label against that label's own domain half of the
stimulus: `("a5", "vowel")`, `("b5", "consonant")`, `("x2", "even")` and
`("x3", "odd")` all evaluate true (and the domain-swapped labels false),
whatever the active task. -/
theorem claim_C5 :
    (∀ (s1 s2 : LNT) (seq : Char × Char) (ch : String),
        (s1.evaluate_response seq ch).1 = (s2.evaluate_response seq ch).1) ∧
      (∀ s : LNT,
        (s.evaluate_response ('a', '5') "vowel").1 = true ∧
          (s.evaluate_response ('b', '5') "consonant").1 = true ∧
          (s.evaluate_response ('x', '2') "even").1 = true ∧
          (s.evaluate_response ('x', '3') "odd").1 = true ∧
          (s.evaluate_response ('a', '5') "consonant").1 = false ∧
          (s.evaluate_response ('x', '2') "odd").1 = false) :=
  ⟨fun _ _ _ _ => rfl, fun _ => ⟨rfl, rfl, rfl, rfl, rfl, rfl⟩⟩

/-- Claim C3: for every WCST or LNT instance with a positive switch
threshold N, after exactly N consecutive reinforced-success evaluations
with no intervening failure (starting with a zero streak), the active
rule/task differs from its value before the streak began, the new value is
drawn from the enumerated values (and, being different, from those
excluding the old one), and the streak counter is 0 immediately after the
switch, which happens synchronously inside the same evaluation call. -/
theorem claim_C3 :
    (∀ (s : WCST) (trials : List WTrial),
        s.streak = 0 →
        0 < s.config.num_successes_before_switch →
        trials.length = s.config.num_successes_before_switch →
        (∀ t ∈ trials, wSuccess s.current_rule t = true) →
        (WCST.run s trials).current_rule ≠ s.current_rule ∧
          (WCST.run s trials).current_rule ∈ wcstRules ∧
          (WCST.run s trials).streak = 0) ∧
      (∀ (s : LNT) (trials : List LTrial),
        s.streak = 0 →
        0 < s.config.num_successes_before_switch →
        trials.length = s.config.num_successes_before_switch →
        (∀ t ∈ trials, lSuccess s.current_task t = true) →
        (LNT.run s trials).current_task ≠ s.current_task ∧
          (LNT.run s trials).current_task ∈ lntTasks ∧
          (LNT.run s trials).streak = 0) := by
  constructor
  · intro s trials h0 hpos hlen hall
    rcases List.eq_nil_or_concat trials with h | ⟨ts, tl, h⟩
    · rw [h] at hlen; simp at hlen; omega
    · subst h
      rw [List.concat_eq_append] at hlen hall ⊢
      rw [List.length_append, List.length_cons, List.length_nil] at hlen
      exact WCST.run_switch s ts tl h0 (by omega)
        (fun t ht => hall t (List.mem_append_left _ ht))
        (hall tl (List.mem_append_right _ (by simp)))
  · intro s trials h0 hpos hlen hall
    rcases List.eq_nil_or_concat trials with h | ⟨ts, tl, h⟩
    · rw [h] at hlen; simp at hlen; omega
    · subst h
      rw [List.concat_eq_append] at hlen hall ⊢
      rw [List.length_append, List.length_cons, List.length_nil] at hlen
      exact LNT.lrun_switch s ts tl h0 (by omega)
        (fun t ht => hall t (List.mem_append_left _ ht))
        (hall tl (List.mem_append_right _ (by simp)))

/-- Claim C4: for every WCST or LNT instance with switch threshold N,
after N−1 consecutive reinforced successes (from a zero streak) followed
by one failed trial, the active rule/task is exactly its value before the
streak began and the streak counter is 0; moreover a single failed
evaluation, from any state, resets the streak to 0 and never changes the
active rule/task. -/
theorem claim_C4 :
    (∀ (s : WCST) (ts : List WTrial) (f : WTrial),
        s.streak = 0 →
        ts.length + 1 = s.config.num_successes_before_switch →
        (∀ t ∈ ts, wSuccess s.current_rule t = true) →
        wSuccess s.current_rule f = false →
        (WCST.run s (ts ++ [f])).current_rule = s.current_rule ∧
          (WCST.run s (ts ++ [f])).streak = 0) ∧
      (∀ (s : WCST) (f : WTrial),
        wSuccess s.current_rule f = false →
        ((s.evaluate_choice f.1 f.2.1 f.2.2).2).current_rule = s.current_rule ∧
          ((s.evaluate_choice f.1 f.2.1 f.2.2).2).streak = 0) ∧
      (∀ (s : LNT) (ts : List LTrial) (f : LTrial),
        s.streak = 0 →
        ts.length + 1 = s.config.num_successes_before_switch →
        (∀ t ∈ ts, lSuccess s.current_task t = true) →
        lSuccess s.current_task f = false →
        (LNT.run s (ts ++ [f])).current_task = s.current_task ∧
          (LNT.run s (ts ++ [f])).streak = 0) ∧
      (∀ (s : LNT) (f : LTrial),
        lSuccess s.current_task f = false →
        ((s.evaluate_response f.1 f.2).2).current_task = s.current_task ∧
          ((s.evaluate_response f.1 f.2).2).streak = 0) :=
  ⟨WCST.run_no_premature, WCST.evaluate_fail, LNT.lrun_no_premature,
    LNT.eval_fail⟩

/-- Claim C6: for every WCST or LNT instance and every number k of
evaluated trials, after those k evaluations the trial counter equals k,
the history holds exactly k records, and the running score equals the
number of history records whose correctness boolean is true — the
incrementally maintained counters and the history agree at every point of
a run. -/
theorem claim_C6 :
    (∀ (cfg : WCSTConfig) (re : Nat) (se we : List Nat) (ts : List WTrial),
        (WCST.run (WCST.init cfg re se we) ts).trial_count = ts.length ∧
          (WCST.run (WCST.init cfg re se we) ts).history.length = ts.length ∧
          (WCST.run (WCST.init cfg re se we) ts).score =
            (WCST.run (WCST.init cfg re se we) ts).history.countP
              (fun r => r.correct)) ∧
      (∀ (cfg : LNTConfig) (te : Nat) (we : List Nat) (ts : List LTrial),
        (LNT.run (LNT.init cfg te we) ts).trial_count = ts.length ∧
          (LNT.run (LNT.init cfg te we) ts).history.length = ts.length ∧
          (LNT.run (LNT.init cfg te we) ts).score =
            (LNT.run (LNT.init cfg te we) ts).history.countP
              (fun r => r.correct)) := by
  constructor
  · intro cfg re se we ts
    refine ⟨?_, ?_, WCST.run_score_inv _ _ rfl⟩
    · rw [WCST.run_trial_count]; show 0 + ts.length = ts.length; omega
    · rw [WCST.run_history_length]; show 0 + ts.length = ts.length; omega
  · intro cfg te we ts
    refine ⟨?_, ?_, LNT.lrun_score_inv _ _ rfl⟩
    · rw [LNT.lrun_trial_count]; show 0 + ts.length = ts.length; omega
    · rw [LNT.lrun_history_length]; show 0 + ts.length = ts.length; omega

/-- Claim C7: for every WCST or LNT instance, `get_performance()` is a
total function returning the triple (accuracy, score, trial_count), where
accuracy is the score divided by the number of evaluated trials when at
least one trial has been evaluated and 0 (not an error) when none has;
in particular a freshly constructed instance reports (0, 0, 0). -/
theorem claim_C7 :
    (∀ (cfg : WCSTConfig) (re : Nat) (se we : List Nat) (ts : List WTrial),
        WCST.get_performance (WCST.run (WCST.init cfg re se we) ts) =
          (if ts.length = 0 then 0
            else ((WCST.run (WCST.init cfg re se we) ts).score : ℚ) /
              (ts.length : ℚ),
            (WCST.run (WCST.init cfg re se we) ts).score, ts.length) ∧
          WCST.get_performance (WCST.init cfg re se we) = (0, 0, 0)) ∧
      (∀ (cfg : LNTConfig) (te : Nat) (we : List Nat) (ts : List LTrial),
        LNT.get_performance (LNT.run (LNT.init cfg te we) ts) =
          (if ts.length = 0 then 0
            else ((LNT.run (LNT.init cfg te we) ts).score : ℚ) /
              (ts.length : ℚ),
            (LNT.run (LNT.init cfg te we) ts).score, ts.length) ∧
          LNT.get_performance (LNT.init cfg te we) = (0, 0, 0)) := by
  constructor
  · intro cfg re se we ts
    have htc : (WCST.run (WCST.init cfg re se we) ts).trial_count = ts.length := by
      rw [WCST.run_trial_count]; show 0 + ts.length = ts.length; omega
    exact ⟨by rw [WCST.get_performance, htc], rfl⟩
  · intro cfg te we ts
    have htc : (LNT.run (LNT.init cfg te we) ts).trial_count = ts.length := by
      rw [LNT.lrun_trial_count]; show 0 + ts.length = ts.length; omega
    exact ⟨by rw [LNT.get_performance, htc], rfl⟩

/-- Claim C8: in the WCST and LNT experiment orchestrators, a trial whose
model response the extractor cannot parse (extraction returns `none`)
leaves the engine untouched: no evaluation call, no appended record, and
the loop simply proceeds — the post-trial engine state equals the
pre-trial state. -/
theorem claim_C8 :
    (∀ (s : WCST) (card : Card) (options : List Card) (r : String),
        GeminiWrapper._extract_choice r = none →
        runTrialWCST s card options r = s) ∧
      (∀ (s : LNT) (seq : Char × Char) (r : String),
        GeminiWrapper._extract_ln_response r = none →
        runTrialLNT s seq r = s) := by
  constructor
  · intro s card options r h
    rw [runTrialWCST, h]
  · intro s seq r h
    rw [runTrialLNT, h]

/-- Claim C9 is corrected by this counterexample: `_extract_choice` does
not validate the parsed value against the 4-element option list — the
response `"5"` extracts to index 4, which is not in the range 0..3, and
the response `"0"` extracts to the negative index −1. -/
theorem claim_C9_counterexample :
    GeminiWrapper._extract_choice "5" = some 4 ∧ ¬((4 : Int) ≤ 3) ∧
      GeminiWrapper._extract_choice "0" = some (-1) := by
  refine ⟨by decide, by decide, by decide⟩

/-- Claim C9 as amended: both wrappers' extractors are total functions
(signalling `none` instead of raising), `_extract_ln_response` returns
`none` or a label from the fixed vocabulary {vowel, consonant, even, odd},
and the Llama extractors are identical to the Gemini ones; but
`_extract_choice` returns the parsed number minus one without validating
the 0..3 index range, so out-of-range values such as 4 (from `"5"`) or 1
(from `"option 2"`) flow through unchecked. -/
theorem claim_C9_amended :
    (∀ r : String, (GeminiWrapper._extract_ln_response r).getD "vowel" ∈
        ["vowel", "consonant", "even", "odd"]) ∧
      LlamaWrapper._extract_choice = GeminiWrapper._extract_choice ∧
      LlamaWrapper._extract_ln_response = GeminiWrapper._extract_ln_response ∧
      GeminiWrapper._extract_choice "5" = some 4 ∧
      GeminiWrapper._extract_choice "option 2" = some 1 ∧
      GeminiWrapper._extract_ln_response "I say VOWEL!" = some "vowel" ∧
      GeminiWrapper._extract_choice "no idea" = none := by
  refine ⟨fun r => findLNLabel_getD_mem _, rfl, rfl, by decide, by decide,
    by decide, by decide⟩

/-- Claim C10: `calculate_bounds(num_tasks, required_successes)` returns
`required_successes / (required_successes + (num_tasks - 1))` (exactly, in
rational arithmetic) for positive arguments; in particular the plotted
worst-case bounds are `calculate_bounds(3, 6) = 0.75` for WCST and
`calculate_bounds(2, 6) = 6/7 ≈ 0.857` for LNT. -/
theorem claim_C10 :
    (∀ t r : Int, 0 < t → 0 < r →
        calculate_bounds t r = (r : ℚ) / ((r : ℚ) + ((t : ℚ) - 1))) ∧
      calculate_bounds 3 6 = 3 / 4 ∧
      calculate_bounds 2 6 = 6 / 7 := by
  refine ⟨fun t r _ _ => rfl, ?_, ?_⟩
  · rw [calculate_bounds]; norm_num
  · rw [calculate_bounds]; norm_num

/-- A small valid WCST configuration (the custom configuration of
`test_wcst_initialization`, with multiplier 1). -/
def c2cfg : WCSTConfig :=
  { shapes := ["circle", "triangle"], colors := ["red", "blue"],
    numbers := [1, 2], multiplier := 1 }

/-- A concrete WCST instance over `c2cfg`. -/
def c2inst : WCST := WCST.init c2cfg 0 [] []

/-- The first card of `c2inst`'s deck. -/
def c2card : Card := c2inst.deck.headD ("circle", "red", 1)

theorem claim_C2_witness :
    ValidConfig c2cfg ∧ c2card ∈ (WCST.run c2inst []).deck ∧
      ((WCST.run c2inst []).generate_options [] c2card).length = 4 ∧
      (∀ o ∈ (WCST.run c2inst []).generate_options [] c2card,
        validCard c2cfg o) ∧
      ((WCST.run c2inst []).generate_options [] c2card).countP
        (fun o => matchesRule o c2card (WCST.run c2inst []).current_rule) = 1 :=
  ⟨by decide, by decide,
    claim_C2 c2cfg 0 [] [] [] [] c2card (by decide) (by decide)⟩

/-- A WCST instance whose switch threshold is 1. -/
def c3s : WCST := WCST.init { num_successes_before_switch := 1 } 0 [] []

/-- One correct trial for `c3s` (its active rule is "shape"). -/
def c3trials : List WTrial := [(("circle", "red", 1), 0, [("circle", "blue", 2)])]

theorem claim_C3_witness :
    c3s.streak = 0 ∧ 0 < c3s.config.num_successes_before_switch ∧
      c3trials.length = c3s.config.num_successes_before_switch ∧
      (∀ t ∈ c3trials, wSuccess c3s.current_rule t = true) ∧
      ((WCST.run c3s c3trials).current_rule ≠ c3s.current_rule ∧
        (WCST.run c3s c3trials).current_rule ∈ wcstRules ∧
        (WCST.run c3s c3trials).streak = 0) :=
  ⟨by decide, by decide, by decide, by decide,
    claim_C3.1 c3s c3trials (by decide) (by decide) (by decide) (by decide)⟩

/-- A WCST instance whose switch threshold is 1 (for the failure case). -/
def c4s : WCST := WCST.init { num_successes_before_switch := 1 } 0 [] []

/-- One incorrect trial for `c4s` (its active rule is "shape"). -/
def c4f : WTrial := (("circle", "red", 1), 0, [("triangle", "blue", 2)])

theorem claim_C4_witness :
    c4s.streak = 0 ∧
      ([] : List WTrial).length + 1 = c4s.config.num_successes_before_switch ∧
      (∀ t ∈ ([] : List WTrial), wSuccess c4s.current_rule t = true) ∧
      wSuccess c4s.current_rule c4f = false ∧
      ((WCST.run c4s ([] ++ [c4f])).current_rule = c4s.current_rule ∧
        (WCST.run c4s ([] ++ [c4f])).streak = 0) :=
  ⟨by decide, by decide, by decide, by decide,
    claim_C4.1 c4s [] c4f (by decide) (by decide) (by decide) (by decide)⟩

/-- A tiny WCST configuration for the orchestrator-skip witness. -/
def c8cfg : WCSTConfig :=
  { shapes := ["circle"], colors := ["red"], numbers := [1], multiplier := 1 }

/-- A tiny WCST instance for the orchestrator-skip witness. -/
def c8s : WCST := WCST.init c8cfg 0 [] []

theorem claim_C8_witness :
    GeminiWrapper._extract_choice "no idea" = none ∧
      runTrialWCST c8s ("circle", "red", 1) [] "no idea" = c8s :=
  ⟨by decide, claim_C8.1 c8s ("circle", "red", 1) [] "no idea" (by decide)⟩

theorem claim_C10_witness :
    (0 : Int) < 3 ∧ (0 : Int) < 6 ∧
      calculate_bounds 3 6 =
        ((6 : Int) : ℚ) / (((6 : Int) : ℚ) + (((3 : Int) : ℚ) - 1)) :=
  ⟨by decide, by decide, claim_C10.1 3 6 (by decide) (by decide)⟩
